import Mathlib

/-!
Verification of the multi-mode inference and persona-assignment engine of the
CSIT-321 marketing analytics pipeline.

The development shallowly embeds the three inference entry points
(ml/segment_customers.py, ml/score_performance.py, ml/recommend_content.py)
over exact rational arithmetic: Python numbers become ℚ, rows and cluster
summaries become structures, and the model/scaler objects are abstracted as
opaque function parameters (their behaviour is outside this repository).
Fallible code returns Except or an explicit result type.
-/

namespace SegmentCustomers

/-- Summary statistics of one cluster, as built by segment_customers.main
per group of the clustered frame (lines 129 to 152 of the source): cluster id,
count, percentage and per-feature means. -/
structure ClusterStat where
  cluster : ℤ
  count : ℕ
  percentage : ℚ
  avg_age : ℚ
  avg_monthly_spend : ℚ
  avg_order_value : ℚ
  avg_orders_per_month : ℚ
  avg_visits_per_month : ℚ
  avg_category_preference_score : ℚ
deriving DecidableEq

/-- The fixed persona catalogue keys of the PERSONAS dict in
segment_customers.py. -/
inductive Persona where
  | eco_lux
  | aspiring
  | gift
deriving DecidableEq

/-- Iteration order of list(PERSONAS.keys()) in segment_customers.main. -/
def persona_keys : List Persona := [Persona.eco_lux, Persona.aspiring, Persona.gift]

/-- Translation of min_max_norm in segment_customers.py: normalize to the 0 to 1
range using min and max; if all values are equal, return 0.5. -/
def min_max_norm (value min_v max_v : ℚ) : ℚ :=
  if max_v = min_v then 1/2
  else (value - min_v) / (max_v - min_v)

/-- Python min over a nonempty list (the empty case is unreachable in the
source, which returns early when cluster_stats is empty). -/
def listMin : List ℚ → ℚ
  | [] => 0
  | x :: xs => xs.foldl min x

/-- Python max over a nonempty list. -/
def listMax : List ℚ → ℚ
  | [] => 0
  | x :: xs => xs.foldl max x

/-- Normalized monthly spend of cluster c against the spend range over all
clusters (variable ns in segment_customers.main). -/
def norm_spend (stats : List ClusterStat) (c : ClusterStat) : ℚ :=
  min_max_norm c.avg_monthly_spend
    (listMin (stats.map ClusterStat.avg_monthly_spend))
    (listMax (stats.map ClusterStat.avg_monthly_spend))

/-- Normalized average order value (variable na). -/
def norm_aov (stats : List ClusterStat) (c : ClusterStat) : ℚ :=
  min_max_norm c.avg_order_value
    (listMin (stats.map ClusterStat.avg_order_value))
    (listMax (stats.map ClusterStat.avg_order_value))

/-- Normalized orders per month (variable no). -/
def norm_orders (stats : List ClusterStat) (c : ClusterStat) : ℚ :=
  min_max_norm c.avg_orders_per_month
    (listMin (stats.map ClusterStat.avg_orders_per_month))
    (listMax (stats.map ClusterStat.avg_orders_per_month))

/-- Normalized visits per month (variable nv). -/
def norm_visits (stats : List ClusterStat) (c : ClusterStat) : ℚ :=
  min_max_norm c.avg_visits_per_month
    (listMin (stats.map ClusterStat.avg_visits_per_month))
    (listMax (stats.map ClusterStat.avg_visits_per_month))

/-- Normalized category preference score (variable np). -/
def norm_pref (stats : List ClusterStat) (c : ClusterStat) : ℚ :=
  min_max_norm c.avg_category_preference_score
    (listMin (stats.map ClusterStat.avg_category_preference_score))
    (listMax (stats.map ClusterStat.avg_category_preference_score))

/-- Affinity scores of a cluster, exactly the scores dict written by
segment_customers.main (lines 172 to 190): eco_lux, aspiring and gift. -/
def scoresOf (stats : List ClusterStat) (c : ClusterStat) : Persona → ℚ
  | Persona.eco_lux => (norm_spend stats c + norm_aov stats c + norm_orders stats c) / 3
  | Persona.aspiring => (norm_visits stats c + norm_pref stats c) / 2
  | Persona.gift =>
      ((1 - norm_orders stats c) + (1 - norm_visits stats c) + norm_spend stats c) / 3

/-- Inner loop of the greedy matching in segment_customers.main: scan the
persona list for the fixed cluster cid, skipping used personas, and replace the
accumulator whenever the score strictly exceeds the best score so far. The
accumulator pairs the best (cluster id, persona) found so far (None at the
start of a round) with its score (initially -1.0). -/
def best_for_cluster (score : Persona → ℚ) (used : List Persona) (cid : ℤ)
    (acc : Option (ℤ × Persona) × ℚ) : List Persona → Option (ℤ × Persona) × ℚ
  | [] => acc
  | p :: rest =>
      if p ∈ used then best_for_cluster score used cid acc rest
      else if acc.2 < score p then
        best_for_cluster score used cid (some (cid, p), score p) rest
      else best_for_cluster score used cid acc rest

/-- Outer loop of one greedy round: scan the cluster list, skipping clusters
whose id is already assigned, and fold the persona scan over the rest. -/
def find_best (score : ClusterStat → Persona → ℚ) (assigned_ids : List ℤ)
    (used : List Persona) (acc : Option (ℤ × Persona) × ℚ) :
    List ClusterStat → Option (ℤ × Persona) × ℚ
  | [] => acc
  | c :: rest =>
      if c.cluster ∈ assigned_ids then find_best score assigned_ids used acc rest
      else
        find_best score assigned_ids used
          (best_for_cluster (score c) used c.cluster acc persona_keys) rest

/-- The while loop of step 5 in segment_customers.main, with explicit fuel.
While fewer clusters are assigned than exist and fewer personas are used than
exist, run one round of find_best from the initial accumulator (None, -1.0);
if it found a pair, record the assignment and mark the persona used, else
break. Each productive round adds one persona to used, so the loop performs at
most three rounds and fuel persona_keys.length makes the embedding exact. -/
def greedy_loop (score : ClusterStat → Persona → ℚ) (stats : List ClusterStat) :
    Nat → List (ℤ × Persona) → List Persona → List (ℤ × Persona) × List Persona
  | 0, assigned, used => (assigned, used)
  | fuel + 1, assigned, used =>
      if assigned.length < stats.length ∧ used.length < persona_keys.length then
        match (find_best score (assigned.map Prod.fst) used (none, -1) stats).1 with
        | some (cid, p) =>
            greedy_loop score stats fuel (assigned ++ [(cid, p)]) (used ++ [p])
        | none => (assigned, used)
      else (assigned, used)

/-- The greedy matching phase run from the empty assignment, as in the
source. -/
def greedy_phase (stats : List ClusterStat) : List (ℤ × Persona) × List Persona :=
  greedy_loop (scoresOf stats) stats persona_keys.length [] []

/-- Python max(scores, key=scores.get) keeps the first item and replaces it
only on a strictly larger value; this is the tail of that scan. -/
def argmax_from (score : Persona → ℚ) (best : Persona) : List Persona → Persona
  | [] => best
  | p :: rest =>
      if score best < score p then argmax_from score p rest
      else argmax_from score best rest

/-- The best persona by own score, iterating the scores dict in its insertion
order eco_lux, aspiring, gift (the order of persona_keys). -/
def argmax_persona (score : Persona → ℚ) : Persona :=
  argmax_from score Persona.eco_lux [Persona.aspiring, Persona.gift]

/-- Fallback loop of segment_customers.main: any cluster still unassigned
after the greedy phase is given its own highest scoring persona. -/
def fallback_fill (score : ClusterStat → Persona → ℚ)
    (assigned : List (ℤ × Persona)) : List ClusterStat → List (ℤ × Persona)
  | [] => assigned
  | c :: rest =>
      if c.cluster ∈ assigned.map Prod.fst then fallback_fill score assigned rest
      else
        fallback_fill score (assigned ++ [(c.cluster, argmax_persona (score c))]) rest

/-- The complete cluster to persona mapping computed by
segment_customers.main: greedy phase, then the fallback fill. The mapping is
an association list in insertion order, mirroring the Python dict. -/
def assign_personas (stats : List ClusterStat) : List (ℤ × Persona) :=
  fallback_fill (scoresOf stats) (greedy_phase stats).1 stats

/-- Concrete pair of cluster summaries, used to instantiate the theorems about
the assignment pipeline on an executable input. -/
def demo_stats : List ClusterStat :=
  [{ cluster := 0, count := 2, percentage := 50, avg_age := 30, avg_monthly_spend := 100,
     avg_order_value := 40, avg_orders_per_month := 5, avg_visits_per_month := 2,
     avg_category_preference_score := 1/2 },
   { cluster := 1, count := 2, percentage := 50, avg_age := 40, avg_monthly_spend := 200,
     avg_order_value := 80, avg_orders_per_month := 1, avg_visits_per_month := 6,
     avg_category_preference_score := 3/4 }]

/-- Mode check of segment_customers.main (lines 101 to 103): any mode outside
behavior, campaign, engagement silently becomes behavior. -/
def normalize_segmentation_mode (mode : String) : String :=
  if mode ∉ (["behavior", "campaign", "engagement"] : List String) then "behavior"
  else mode

end SegmentCustomers

/-- Terminal validation error of the scoring and recommendation pipelines: the
input record set lacks required columns. Downstream scaling and prediction
failures are abstracted away behind the opaque predict parameter of the
pipelines, which only runs after validation passes. -/
inductive RunError where
  | missingColumns (cols : List String)
deriving DecidableEq

namespace PyModel

/-- Shape of a Python exception as far as the load paths inspect it: the
dynamic class (ValueError, TypeError and FileNotFoundError are the classes the
source names in except clauses; every other class is otherExc with its name)
together with its message str(e). -/
inductive PyExc where
  | valueError (msg : String)
  | typeError (msg : String)
  | fileNotFoundError (msg : String)
  | otherExc (kind msg : String)
deriving DecidableEq

/-- The message str(e) of an exception. -/
def excMessage : PyExc → String
  | PyExc.valueError m => m
  | PyExc.typeError m => m
  | PyExc.fileNotFoundError m => m
  | PyExc.otherExc _ m => m

/-- Character list version of str.startswith. -/
def starts_with : List Char → List Char → Bool
  | [], _ => true
  | _ :: _, [] => false
  | a :: as, b :: bs => (a = b) && starts_with as bs

/-- Character list version of the Python substring test needle in hay. -/
def has_infix_chars (needle : List Char) : List Char → Bool
  | [] => starts_with needle []
  | c :: rest => starts_with needle (c :: rest) || has_infix_chars needle rest

/-- The version mismatch heuristic shared by score_performance.load_model and
recommend_content: the error message contains one of the two known
incompatibility markers. -/
def has_marker (msg : String) : Bool :=
  has_infix_chars "incompatible dtype".toList msg.toList
    || has_infix_chars "missing_go_to_left".toList msg.toList

end PyModel

namespace ScorePerformance

/-- Required feature columns of score_performance.py (FEATURES). -/
def FEATURES : List String :=
  ["impressions", "clicks", "spend", "conversions", "sessions", "add_to_carts",
   "avg_session_duration"]

/-- Translation of safe_div: num divided by den if den is not 0 or 0.0, else
0.0. Python tests den not in (0, 0.0) by value equality, and over ℚ both
zeros are the single value 0. -/
def safe_div (num den : ℚ) : ℚ :=
  if den ≠ 0 then num / den else 0

/-- One input row restricted to the numeric feature columns of the scoring
CSV. -/
structure CampaignRow where
  impressions : ℚ
  clicks : ℚ
  spend : ℚ
  conversions : ℚ
  sessions : ℚ
  add_to_carts : ℚ
  avg_session_duration : ℚ
deriving DecidableEq

/-- Derived click through rate of a row: clicks over impressions. -/
def ctr (r : CampaignRow) : ℚ := safe_div r.clicks r.impressions

/-- Derived conversion rate of a row: conversions over clicks. -/
def conversion_rate (r : CampaignRow) : ℚ := safe_div r.conversions r.clicks

/-- Derived cost per click of a row: spend over clicks. -/
def cpc (r : CampaignRow) : ℚ := safe_div r.spend r.clicks

/-- Mode check of score_performance.main (lines 60 to 62): any mode outside
engagement, roi, conversion silently becomes roi. -/
def normalize_scoring_mode (mode : String) : String :=
  if mode ∉ (["engagement", "roi", "conversion"] : List String) then "roi"
  else mode

/-- The columns of FEATURES absent from the input, in FEATURES order, as the
list comprehension of line 76 builds it. -/
def missing_columns (cols : List String) : List String :=
  FEATURES.filter fun c => decide (c ∉ cols)

/-- The scoring pipeline from column validation onward. The scaler transform
and model predict of the source are abstracted as the opaque predict
parameter, which is only applied after validation passes; when columns are
missing the pipeline fails with the full missing list. -/
def score_records (predict : List CampaignRow → List ℚ) (cols : List String)
    (rows : List CampaignRow) : Except RunError (List ℚ) :=
  if missing_columns cols ≠ [] then
    Except.error (RunError.missingColumns (missing_columns cols))
  else Except.ok (predict rows)

/-- The not-found message of load_model (artifact path pair absent). -/
def notfound_message (mode : String) : String :=
  "Model or scaler not found for mode " ++ mode
    ++ ". Please run: python ml/train_advanced_performance_models.py"

/-- The incompatibility message of load_model. -/
def incompat_message : String :=
  "Model incompatible with current scikit-learn version. Please retrain: python ml/train_advanced_performance_models.py"

/-- Outcome of an artifact load: success, one of the reported error shapes, or
an exception escaping the except clauses (which the source does not catch). -/
inductive LoadResult where
  | ok
  | notFound (msg : String)
  | incompatible (msg : String)
  | loadFailed (msg : String)
  | uncaught (e : PyModel.PyExc)
deriving DecidableEq

/-- Translation of score_performance.load_model: missing artifact files give
the not-found error; the two joblib.load calls sit in a try block whose
except clause catches exactly ValueError and TypeError, mapping marker
messages to the incompatibility error and the rest to the generic load
failure; any other exception class propagates out of load_model uncaught. The
load parameter is the outcome of the try block body. -/
def load_model (mode : String) (model_exists scaler_exists : Bool)
    (load : Except PyModel.PyExc Unit) : LoadResult :=
  if !model_exists || !scaler_exists then
    LoadResult.notFound (notfound_message mode)
  else
    match load with
    | Except.ok _ => LoadResult.ok
    | Except.error (PyModel.PyExc.valueError msg) =>
        if PyModel.has_marker msg then LoadResult.incompatible incompat_message
        else LoadResult.loadFailed ("Failed to load model: " ++ msg)
    | Except.error (PyModel.PyExc.typeError msg) =>
        if PyModel.has_marker msg then LoadResult.incompatible incompat_message
        else LoadResult.loadFailed ("Failed to load model: " ++ msg)
    | Except.error e => LoadResult.uncaught e

/-- One assembled prediction record (numeric fields only); pred_roas is the
backwards compatible duplicate of pred_score. -/
structure PredRecord where
  campaign_id : String
  pred_score : ℚ
  pred_roas : ℚ
  ctr : ℚ
  conversion_rate : ℚ
  cpc : ℚ
deriving DecidableEq

/-- Sort key selected by mode (lines 123 to 128): engagement sorts by ctr,
conversion by conversion rate, roi by predicted score. -/
def sort_key_of (mode : String) : PredRecord → ℚ :=
  if mode = "engagement" then PredRecord.ctr
  else if mode = "conversion" then PredRecord.conversion_rate
  else PredRecord.pred_score

/-- Descending ordering of the prediction records by the selected key. The
source ranks with pandas sort_values under its default quicksort; the
properties proved about this ranking (lengths, permutation) are independent of
the sorting algorithm, and the embedding uses a merge sort. -/
def rank_descending (key : PredRecord → ℚ) (l : List PredRecord) : List PredRecord :=
  l.mergeSort fun a b => decide (key b ≤ key a)

/-- The top campaigns list: head(5) of the descending sort. -/
def top_campaigns (key : PredRecord → ℚ) (l : List PredRecord) : List PredRecord :=
  (rank_descending key l).take 5

/-- One legacy recommendation entry derived from a top campaign. -/
structure Recommendation where
  campaign_id : String
  pred_roas : ℚ
  suggestion : String
deriving DecidableEq

/-- The legacy top_recommendations list: one entry per top campaign. -/
def top_recommendations (key : PredRecord → ℚ) (l : List PredRecord) :
    List Recommendation :=
  (top_campaigns key l).map fun item =>
    { campaign_id := item.campaign_id, pred_roas := item.pred_roas,
      suggestion := "Prioritise this campaign based on the selected performance mode." }

/-- Concrete scoring row for witnesses: the scenario row of the spec. -/
def demo_row_scoring : CampaignRow :=
  { impressions := 100, clicks := 10, spend := 50, conversions := 2,
    sessions := 3, add_to_carts := 4, avg_session_duration := 5 }

/-- Concrete scoring row with zero clicks for witnesses. -/
def demo_row_zero_clicks : CampaignRow :=
  { impressions := 100, clicks := 0, spend := 50, conversions := 2,
    sessions := 3, add_to_carts := 4, avg_session_duration := 5 }

/-- Concrete prediction record for witnesses. -/
def demo_pred : PredRecord :=
  { campaign_id := "c1", pred_score := 2, pred_roas := 2, ctr := 1/10,
    conversion_rate := 1/5, cpc := 5 }

/-- Five concrete prediction records for witnesses. -/
def demo_preds : List PredRecord :=
  [demo_pred, demo_pred, demo_pred, demo_pred, demo_pred]

end ScorePerformance

namespace RecommendContent

/-- Required feature columns of recommend_content.py (feature_cols). -/
def feature_cols : List String :=
  ["avg_engagement_rate", "avg_conversion_rate", "avg_roas", "sample_size"]

/-- One input row of the content CSV: identifier and descriptive columns kept
in the output plus the numeric feature columns. -/
structure ContentRow where
  content_id : String
  persona_key : String
  campaign_goal : String
  channel : String
  format : String
  avg_engagement_rate : ℚ
  avg_conversion_rate : ℚ
  avg_roas : ℚ
  sample_size : ℚ
deriving DecidableEq

/-- The columns of feature_cols absent from the input, in order (line 48). -/
def missing_content_columns (cols : List String) : List String :=
  feature_cols.filter fun c => decide (c ∉ cols)

/-- The recommendation pipeline from column validation onward, the model
predict abstracted as for score_records. -/
def recommend_records (predict : List ContentRow → List ℚ) (cols : List String)
    (rows : List ContentRow) : Except RunError (List ℚ) :=
  if missing_content_columns cols ≠ [] then
    Except.error (RunError.missingColumns (missing_content_columns cols))
  else Except.ok (predict rows)

/-- The not-found message of the content model load. -/
def notfound_content_message : String := "Model file not found at MODEL_PATH"

/-- The incompatibility message of the content model load. -/
def incompat_content_message : String :=
  "Model was trained with an incompatible scikit-learn version"

/-- Translation of the load block of recommend_content (lines 14 to 32): a
FileNotFoundError gives the not-found error; ValueError and TypeError are
inspected for the incompatibility markers; and a final catch-all except turns
every other exception into the generic load failure with its message. -/
def load_content_model (load : Except PyModel.PyExc Unit) :
    ScorePerformance.LoadResult :=
  match load with
  | Except.ok _ => ScorePerformance.LoadResult.ok
  | Except.error (PyModel.PyExc.fileNotFoundError _) =>
      ScorePerformance.LoadResult.notFound notfound_content_message
  | Except.error (PyModel.PyExc.valueError msg) =>
      if PyModel.has_marker msg then
        ScorePerformance.LoadResult.incompatible incompat_content_message
      else ScorePerformance.LoadResult.loadFailed ("Failed to load model: " ++ msg)
  | Except.error (PyModel.PyExc.typeError msg) =>
      if PyModel.has_marker msg then
        ScorePerformance.LoadResult.incompatible incompat_content_message
      else ScorePerformance.LoadResult.loadFailed ("Failed to load model: " ++ msg)
  | Except.error e =>
      ScorePerformance.LoadResult.loadFailed
        ("Failed to load model: " ++ PyModel.excMessage e)

/-- The top recommendations of recommend_content: head(5) of the rows sorted
descending by the predicted score column (the model output, abstracted as the
score parameter). -/
def top_picks (score : ContentRow → ℚ) (l : List ContentRow) : List ContentRow :=
  (l.mergeSort fun a b => decide (score b ≤ score a)).take 5

/-- Concrete content row for witnesses. -/
def demo_row : ContentRow :=
  { content_id := "i1", persona_key := "eco_lux", campaign_goal := "awareness",
    channel := "social", format := "video", avg_engagement_rate := 1/2,
    avg_conversion_rate := 1/10, avg_roas := 3, sample_size := 40 }

/-- Five concrete content rows for witnesses. -/
def demo_rows : List ContentRow := [demo_row, demo_row, demo_row, demo_row, demo_row]

end RecommendContent

namespace SegmentCustomers

lemma foldl_min_le_init (l : List ℚ) : ∀ i : ℚ, l.foldl min i ≤ i := by
  induction l with
  | nil => intro i; simp
  | cons x xs ih =>
      intro i
      calc (x :: xs).foldl min i = xs.foldl min (min i x) := rfl
        _ ≤ min i x := ih (min i x)
        _ ≤ i := min_le_left i x

lemma foldl_min_le_mem (l : List ℚ) : ∀ i x, x ∈ l → l.foldl min i ≤ x := by
  induction l with
  | nil => intro i x hx; cases hx
  | cons a as ih =>
      intro i x hx
      rcases List.mem_cons.mp hx with h | h
      · subst h
        calc (x :: as).foldl min i = as.foldl min (min i x) := rfl
          _ ≤ min i x := foldl_min_le_init as (min i x)
          _ ≤ x := min_le_right i x
      · exact ih (min i a) x h

lemma listMin_le_of_mem {l : List ℚ} {x : ℚ} (hx : x ∈ l) : listMin l ≤ x := by
  cases l with
  | nil => cases hx
  | cons a as =>
      rcases List.mem_cons.mp hx with h | h
      · subst h; exact foldl_min_le_init as x
      · exact foldl_min_le_mem as a x h

lemma init_le_foldl_max (l : List ℚ) : ∀ i : ℚ, i ≤ l.foldl max i := by
  induction l with
  | nil => intro i; simp
  | cons x xs ih =>
      intro i
      calc i ≤ max i x := le_max_left i x
        _ ≤ xs.foldl max (max i x) := ih (max i x)
        _ = (x :: xs).foldl max i := rfl

lemma mem_le_foldl_max (l : List ℚ) : ∀ i x, x ∈ l → x ≤ l.foldl max i := by
  induction l with
  | nil => intro i x hx; cases hx
  | cons a as ih =>
      intro i x hx
      rcases List.mem_cons.mp hx with h | h
      · subst h
        calc x ≤ max i x := le_max_right i x
          _ ≤ as.foldl max (max i x) := init_le_foldl_max as (max i x)
          _ = (x :: as).foldl max i := rfl
      · exact ih (max i a) x h

lemma le_listMax_of_mem {l : List ℚ} {x : ℚ} (hx : x ∈ l) : x ≤ listMax l := by
  cases l with
  | nil => cases hx
  | cons a as =>
      rcases List.mem_cons.mp hx with h | h
      · subst h; exact init_le_foldl_max as x
      · exact mem_le_foldl_max as a x h

lemma min_max_norm_bounds {v m M : ℚ} (h1 : m ≤ v) (h2 : v ≤ M) :
    0 ≤ min_max_norm v m M ∧ min_max_norm v m M ≤ 1 := by
  unfold min_max_norm
  split
  · norm_num
  · rename_i hne
    have hlt : m < M := lt_of_le_of_ne (h1.trans h2) fun h => hne h.symm
    constructor
    · exact div_nonneg (by linarith) (by linarith)
    · rw [div_le_one (by linarith)]; linarith

lemma norm_of_proj_bounds (f : ClusterStat → ℚ) {stats : List ClusterStat}
    {c : ClusterStat} (hc : c ∈ stats) :
    0 ≤ min_max_norm (f c) (listMin (stats.map f)) (listMax (stats.map f))
      ∧ min_max_norm (f c) (listMin (stats.map f)) (listMax (stats.map f)) ≤ 1 :=
  min_max_norm_bounds (listMin_le_of_mem (List.mem_map_of_mem f hc))
    (le_listMax_of_mem (List.mem_map_of_mem f hc))

lemma scoresOf_nonneg {stats : List ClusterStat} {c : ClusterStat}
    (hc : c ∈ stats) (p : Persona) : 0 ≤ scoresOf stats c p := by
  have h1 := norm_of_proj_bounds ClusterStat.avg_monthly_spend hc
  have h2 := norm_of_proj_bounds ClusterStat.avg_order_value hc
  have h3 := norm_of_proj_bounds ClusterStat.avg_orders_per_month hc
  have h4 := norm_of_proj_bounds ClusterStat.avg_visits_per_month hc
  have h5 := norm_of_proj_bounds ClusterStat.avg_category_preference_score hc
  cases p <;>
    simp only [scoresOf, norm_spend, norm_aov, norm_orders, norm_visits, norm_pref] <;>
    [linarith [h1.1, h2.1, h3.1]; linarith [h4.1, h5.1]; linarith [h1.1, h3.2, h4.2]]

lemma mem_persona_keys (p : Persona) : p ∈ persona_keys := by
  cases p <;> simp [persona_keys]

lemma persona_keys_nodup : persona_keys.Nodup := by decide

lemma bfc_le (f : Persona → ℚ) (us : List Persona) (cid : ℤ) :
    ∀ ps acc, acc.2 ≤ (best_for_cluster f us cid acc ps).2 := by
  intro ps
  induction ps with
  | nil => intro acc; simp [best_for_cluster]
  | cons p rest ih =>
      intro acc
      by_cases hu : p ∈ us
      · simpa [best_for_cluster, hu] using ih acc
      · by_cases hlt : acc.2 < f p
        · have h2 := ih (some (cid, p), f p)
          have hr : best_for_cluster f us cid acc (p :: rest)
              = best_for_cluster f us cid (some (cid, p), f p) rest := by
            simp [best_for_cluster, hu, hlt]
          rw [hr]
          exact (le_of_lt hlt).trans (by simpa using h2)
        · simpa [best_for_cluster, hu, hlt] using ih acc

lemma bfc_ge (f : Persona → ℚ) (us : List Persona) (cid : ℤ) :
    ∀ ps acc p, p ∈ ps → p ∉ us → f p ≤ (best_for_cluster f us cid acc ps).2 := by
  intro ps
  induction ps with
  | nil => intro acc p hp; cases hp
  | cons a rest ih =>
      intro acc p hp hpu
      rcases List.mem_cons.mp hp with h | h
      · subst h
        by_cases hlt : acc.2 < f p
        · have := bfc_le f us cid rest (some (cid, p), f p)
          simpa [best_for_cluster, hpu, hlt] using this
        · have h2 : f p ≤ acc.2 := le_of_not_lt hlt
          have := bfc_le f us cid rest acc
          simp only [best_for_cluster, hpu, hlt, if_false]
          exact h2.trans this
      · by_cases hu : a ∈ us
        · simpa [best_for_cluster, hu] using ih acc p h hpu
        · by_cases hlt : acc.2 < f a
          · simpa [best_for_cluster, hu, hlt] using ih (some (cid, a), f a) p h hpu
          · simpa [best_for_cluster, hu, hlt] using ih acc p h hpu

lemma bfc_cases (f : Persona → ℚ) (us : List Persona) (cid : ℤ) :
    ∀ ps acc, best_for_cluster f us cid acc ps = acc
      ∨ ∃ p, p ∈ ps ∧ p ∉ us ∧ best_for_cluster f us cid acc ps = (some (cid, p), f p) := by
  intro ps
  induction ps with
  | nil => intro acc; left; rfl
  | cons a rest ih =>
      intro acc
      by_cases hu : a ∈ us
      · rcases ih acc with h | ⟨p, hp, hpu, h⟩
        · left; simpa [best_for_cluster, hu] using h
        · right; exact ⟨p, List.mem_cons_of_mem a hp, hpu,
            by simpa [best_for_cluster, hu] using h⟩
      · by_cases hlt : acc.2 < f a
        · rcases ih (some (cid, a), f a) with h | ⟨p, hp, hpu, h⟩
          · right; exact ⟨a, List.mem_cons_self a rest, hu,
              by simpa [best_for_cluster, hu, hlt] using h⟩
          · right; exact ⟨p, List.mem_cons_of_mem a hp, hpu,
              by simpa [best_for_cluster, hu, hlt] using h⟩
        · rcases ih acc with h | ⟨p, hp, hpu, h⟩
          · left; simpa [best_for_cluster, hu, hlt] using h
          · right; exact ⟨p, List.mem_cons_of_mem a hp, hpu,
              by simpa [best_for_cluster, hu, hlt] using h⟩

lemma fb_le (score : ClusterStat → Persona → ℚ) (as : List ℤ) (us : List Persona) :
    ∀ cs acc, acc.2 ≤ (find_best score as us acc cs).2 := by
  intro cs
  induction cs with
  | nil => intro acc; simp [find_best]
  | cons c rest ih =>
      intro acc
      by_cases ha : c.cluster ∈ as
      · simpa [find_best, ha] using ih acc
      · have h1 := bfc_le (score c) us c.cluster persona_keys acc
        have h2 := ih (best_for_cluster (score c) us c.cluster acc persona_keys)
        simp only [find_best, ha, if_false]
        exact h1.trans h2

lemma fb_ge (score : ClusterStat → Persona → ℚ) (as : List ℤ) (us : List Persona) :
    ∀ cs acc c p, c ∈ cs → c.cluster ∉ as → p ∉ us →
      score c p ≤ (find_best score as us acc cs).2 := by
  intro cs
  induction cs with
  | nil => intro acc c p hc; cases hc
  | cons d rest ih =>
      intro acc c p hc hca hpu
      rcases List.mem_cons.mp hc with h | h
      · subst h
        have h1 := bfc_ge (score c) us c.cluster persona_keys acc p
          (mem_persona_keys p) hpu
        have h2 := fb_le score as us rest
          (best_for_cluster (score c) us c.cluster acc persona_keys)
        simp only [find_best, hca, if_false]
        exact h1.trans h2
      · by_cases hd : d.cluster ∈ as
        · simpa [find_best, hd] using ih acc c p h hca hpu
        · simpa [find_best, hd] using
            ih (best_for_cluster (score d) us d.cluster acc persona_keys) c p h hca hpu

lemma fb_cases (score : ClusterStat → Persona → ℚ) (as : List ℤ) (us : List Persona) :
    ∀ cs acc, find_best score as us acc cs = acc
      ∨ ∃ c p, c ∈ cs ∧ c.cluster ∉ as ∧ p ∉ us ∧
          find_best score as us acc cs = (some (c.cluster, p), score c p) := by
  intro cs
  induction cs with
  | nil => intro acc; left; rfl
  | cons d rest ih =>
      intro acc
      by_cases hd : d.cluster ∈ as
      · rcases ih acc with h | ⟨c, p, hc, hca, hpu, h⟩
        · left; simpa [find_best, hd] using h
        · right; exact ⟨c, p, List.mem_cons_of_mem d hc, hca, hpu,
            by simpa [find_best, hd] using h⟩
      · rcases bfc_cases (score d) us d.cluster persona_keys acc with hb | ⟨p, _, hpu, hb⟩
        · rcases ih acc with h | ⟨c, p, hc, hca, hpu, h⟩
          · left; simp only [find_best, hd, if_false]; rw [hb]; exact h
          · right
            refine ⟨c, p, List.mem_cons_of_mem d hc, hca, hpu, ?_⟩
            simp only [find_best, hd, if_false]; rw [hb]; exact h
        · rcases ih (some (d.cluster, p), score d p) with h | ⟨c, q, hc, hca, hqu, h⟩
          · right
            refine ⟨d, p, List.mem_cons_self d rest, hd, hpu, ?_⟩
            simp only [find_best, hd, if_false]; rw [hb]; exact h
          · right
            refine ⟨c, q, List.mem_cons_of_mem d hc, hca, hqu, ?_⟩
            simp only [find_best, hd, if_false]; rw [hb]; exact h

lemma find_best_choice (stats : List ClusterStat) (as : List ℤ) (us : List Persona)
    (h0 : ∃ c ∈ stats, c.cluster ∉ as) (h1 : ∃ p : Persona, p ∉ us) :
    ∃ c p, c ∈ stats ∧ c.cluster ∉ as ∧ p ∉ us ∧
      find_best (scoresOf stats) as us (none, -1) stats
        = (some (c.cluster, p), scoresOf stats c p) ∧
      ∀ c2 ∈ stats, c2.cluster ∉ as → ∀ q : Persona, q ∉ us →
        scoresOf stats c2 q ≤ scoresOf stats c p := by
  obtain ⟨c0, hc0, hc0n⟩ := h0
  obtain ⟨p0, hp0⟩ := h1
  have hge := fb_ge (scoresOf stats) as us stats (none, -1) c0 p0 hc0 hc0n hp0
  rcases fb_cases (scoresOf stats) as us stats (none, -1) with heq | ⟨c, p, hc, hca, hpu, heq⟩
  · exfalso
    rw [heq] at hge
    have := scoresOf_nonneg hc0 p0
    rw [show ((none : Option (ℤ × Persona)), (-1 : ℚ)).2 = -1 from rfl] at hge
    linarith
  · refine ⟨c, p, hc, hca, hpu, heq, ?_⟩
    intro c2 h2 h2n q hq
    have := fb_ge (scoresOf stats) as us stats (none, -1) c2 q h2 h2n hq
    rw [heq] at this
    exact this

lemma fst_notmem_pair {l : List (ℤ × Persona)} {a : ℤ} (h : a ∉ l.map Prod.fst) :
    ∀ x : Persona, (a, x) ∉ l := fun x hx => h (List.mem_map_of_mem Prod.fst hx)

lemma snd_notmem_pair {l : List (ℤ × Persona)} {p : Persona} (h : p ∉ l.map Prod.snd) :
    ∀ x : ℤ, (x, p) ∉ l := fun x hx => h (List.mem_map_of_mem Prod.snd hx)

lemma exists_unassigned (stats : List ClusterStat) (ids : List ℤ)
    (hnd : (stats.map ClusterStat.cluster).Nodup) (hlen : ids.length < stats.length) :
    ∃ c ∈ stats, c.cluster ∉ ids := by
  by_contra h
  push_neg at h
  have hsub : stats.map ClusterStat.cluster ⊆ ids := by
    intro x hx
    obtain ⟨c, hc, rfl⟩ := List.mem_map.mp hx
    exact h c hc
  have := (hnd.subperm hsub).length_le
  rw [List.length_map] at this
  omega

lemma exists_unused (us : List Persona) (hlen : us.length < persona_keys.length) :
    ∃ p : Persona, p ∉ us := by
  by_contra h
  push_neg at h
  have hsub : persona_keys ⊆ us := fun p _ => h p
  have := (persona_keys_nodup.subperm hsub).length_le
  omega

lemma greedy_loop_length (stats : List ClusterStat)
    (hnd : (stats.map ClusterStat.cluster).Nodup) :
    ∀ fuel (as : List (ℤ × Persona)) (us : List Persona),
      (as.map Prod.fst).Nodup →
      (∀ x ∈ as.map Prod.fst, x ∈ stats.map ClusterStat.cluster) →
      us.length = as.length →
      as.length ≤ min stats.length persona_keys.length →
      min stats.length persona_keys.length ≤ as.length + fuel →
      ((greedy_loop (scoresOf stats) stats fuel as us).1).length
        = min stats.length persona_keys.length := by
  intro fuel
  induction fuel with
  | zero =>
      intro as us _ _ _ h4 h5
      simp only [greedy_loop]
      omega
  | succ fuel ih =>
      intro as us h1 h2 h3 h4 h5
      by_cases hlt : as.length < min stats.length persona_keys.length
      · have hcond : as.length < stats.length ∧ us.length < persona_keys.length := by
          omega
        obtain ⟨c, p, hc, hca, hpu, heq, _⟩ :=
          find_best_choice stats (as.map Prod.fst) us
            (exists_unassigned stats (as.map Prod.fst) hnd
              (by rw [List.length_map]; omega))
            (exists_unused us (by omega))
        have hstep : greedy_loop (scoresOf stats) stats (fuel + 1) as us
            = greedy_loop (scoresOf stats) stats fuel (as ++ [(c.cluster, p)]) (us ++ [p]) := by
          simp only [greedy_loop, if_pos hcond, heq]
        rw [hstep]
        refine ih (as ++ [(c.cluster, p)]) (us ++ [p]) ?_ ?_ ?_ ?_ ?_
        · simpa [List.nodup_append] using ⟨h1, fst_notmem_pair hca⟩
        · intro x hx
          rw [List.map_append] at hx
          rcases List.mem_append.mp hx with h | h
          · exact h2 x h
          · simp only [List.map_cons, List.map_nil, List.mem_singleton] at h
            subst h
            exact List.mem_map_of_mem ClusterStat.cluster hc
        · simp [h3]
        · simp; omega
        · simp; omega
      · have heq : as.length = min stats.length persona_keys.length := by omega
        have hcond : ¬(as.length < stats.length ∧ us.length < persona_keys.length) := by
          omega
        simp only [greedy_loop, if_neg hcond]
        omega

lemma greedy_loop_sound (stats : List ClusterStat) :
    ∀ fuel (as : List (ℤ × Persona)) (us : List Persona),
      (as.map Prod.fst).Nodup →
      (∀ x ∈ as.map Prod.fst, x ∈ stats.map ClusterStat.cluster) →
      us = as.map Prod.snd →
      (as.map Prod.snd).Nodup →
      (((greedy_loop (scoresOf stats) stats fuel as us).1.map Prod.fst).Nodup
        ∧ (∀ x ∈ (greedy_loop (scoresOf stats) stats fuel as us).1.map Prod.fst,
            x ∈ stats.map ClusterStat.cluster)
        ∧ (greedy_loop (scoresOf stats) stats fuel as us).2
            = (greedy_loop (scoresOf stats) stats fuel as us).1.map Prod.snd
        ∧ ((greedy_loop (scoresOf stats) stats fuel as us).1.map Prod.snd).Nodup) := by
  intro fuel
  induction fuel with
  | zero =>
      intro as us h1 h2 h3 h4
      simp only [greedy_loop]
      exact ⟨h1, h2, h3, h4⟩
  | succ fuel ih =>
      intro as us h1 h2 h3 h4
      by_cases hcond : as.length < stats.length ∧ us.length < persona_keys.length
      · rcases hfb : (find_best (scoresOf stats) (as.map Prod.fst) us (none, -1) stats).1
          with _ | ⟨cid, p⟩
        · simp only [greedy_loop, if_pos hcond, hfb]
          exact ⟨h1, h2, h3, h4⟩
        · rcases fb_cases (scoresOf stats) (as.map Prod.fst) us stats (none, -1)
            with hr | ⟨c, q, hc, hca, hqu, hr⟩
          · rw [hr] at hfb; cases hfb
          · rw [hr] at hfb
            have hcid : cid = c.cluster := by
              have := congrArg (fun o => o.getD (0, Persona.gift)) hfb
              simp at this
              exact this.1.symm
            have hq : p = q := by
              have := congrArg (fun o => o.getD (0, Persona.gift)) hfb
              simp at this
              exact this.2.symm
            subst hcid; subst hq
            have hstep : greedy_loop (scoresOf stats) stats (fuel + 1) as us
                = greedy_loop (scoresOf stats) stats fuel
                    (as ++ [(c.cluster, p)]) (us ++ [p]) := by
              simp only [greedy_loop, if_pos hcond, hr]
            rw [hstep]
            refine ih (as ++ [(c.cluster, p)]) (us ++ [p]) ?_ ?_ ?_ ?_
            · simpa [List.nodup_append] using ⟨h1, fst_notmem_pair hca⟩
            · intro x hx
              rw [List.map_append] at hx
              rcases List.mem_append.mp hx with h | h
              · exact h2 x h
              · simp only [List.map_cons, List.map_nil, List.mem_singleton] at h
                subst h
                exact List.mem_map_of_mem ClusterStat.cluster hc
            · simp [h3]
            · rw [h3] at hqu
              simpa [List.nodup_append] using ⟨h4, snd_notmem_pair hqu⟩
      · simp only [greedy_loop, if_neg hcond]
        exact ⟨h1, h2, h3, h4⟩

/-- Claim C3: min max normalization returns the exact ratio when max differs
from min and exactly one half when they coincide; being a total function on ℚ
it can never raise a division error. -/
theorem min_max_norm_cases (v min_v max_v : ℚ) :
    (max_v ≠ min_v → min_max_norm v min_v max_v = (v - min_v) / (max_v - min_v))
    ∧ (max_v = min_v → min_max_norm v min_v max_v = 1/2) := by
  constructor <;> intro h <;> simp [min_max_norm, h]

/-- Witness for C3 at concrete inputs: a proper range and a degenerate one. -/
theorem min_max_norm_cases_witness :
    min_max_norm 2 1 5 = (2 - 1) / (5 - 1) ∧ min_max_norm 3 7 7 = 1/2 :=
  ⟨(min_max_norm_cases 2 1 5).1 (by norm_num), (min_max_norm_cases 3 7 7).2 rfl⟩

/-- Claim C4: for every cluster the three affinity scores are exactly the
stated unweighted means of the min max normalized metric means, the ranges
being taken over all clusters. -/
theorem affinity_scores_formula (stats : List ClusterStat) (c : ClusterStat) :
    scoresOf stats c Persona.eco_lux =
      (min_max_norm c.avg_monthly_spend
          (listMin (stats.map ClusterStat.avg_monthly_spend))
          (listMax (stats.map ClusterStat.avg_monthly_spend))
        + min_max_norm c.avg_order_value
          (listMin (stats.map ClusterStat.avg_order_value))
          (listMax (stats.map ClusterStat.avg_order_value))
        + min_max_norm c.avg_orders_per_month
          (listMin (stats.map ClusterStat.avg_orders_per_month))
          (listMax (stats.map ClusterStat.avg_orders_per_month))) / 3
    ∧ scoresOf stats c Persona.aspiring =
      (min_max_norm c.avg_visits_per_month
          (listMin (stats.map ClusterStat.avg_visits_per_month))
          (listMax (stats.map ClusterStat.avg_visits_per_month))
        + min_max_norm c.avg_category_preference_score
          (listMin (stats.map ClusterStat.avg_category_preference_score))
          (listMax (stats.map ClusterStat.avg_category_preference_score))) / 2
    ∧ scoresOf stats c Persona.gift =
      ((1 - min_max_norm c.avg_orders_per_month
          (listMin (stats.map ClusterStat.avg_orders_per_month))
          (listMax (stats.map ClusterStat.avg_orders_per_month)))
        + (1 - min_max_norm c.avg_visits_per_month
          (listMin (stats.map ClusterStat.avg_visits_per_month))
          (listMax (stats.map ClusterStat.avg_visits_per_month)))
        + min_max_norm c.avg_monthly_spend
          (listMin (stats.map ClusterStat.avg_monthly_spend))
          (listMax (stats.map ClusterStat.avg_monthly_spend))) / 3 :=
  ⟨rfl, rfl, rfl⟩

lemma fallback_mem_mono (score : ClusterStat → Persona → ℚ) :
    ∀ (cs : List ClusterStat) (acc : List (ℤ × Persona)) (x : ℤ × Persona),
      x ∈ acc → x ∈ fallback_fill score acc cs := by
  intro cs
  induction cs with
  | nil => intro acc x hx; simpa [fallback_fill] using hx
  | cons c rest ih =>
      intro acc x hx
      by_cases h : c.cluster ∈ acc.map Prod.fst
      · simpa [fallback_fill, h] using ih acc x hx
      · simp only [fallback_fill, h, if_false]
        exact ih _ x (List.mem_append_left _ hx)

lemma fallback_keys_spec (score : ClusterStat → Persona → ℚ) :
    ∀ (cs : List ClusterStat) (acc : List (ℤ × Persona)),
      (acc.map Prod.fst).Nodup → (cs.map ClusterStat.cluster).Nodup →
      (((fallback_fill score acc cs).map Prod.fst).Nodup
        ∧ ∀ x, x ∈ (fallback_fill score acc cs).map Prod.fst ↔
            (x ∈ acc.map Prod.fst ∨ x ∈ cs.map ClusterStat.cluster)) := by
  intro cs
  induction cs with
  | nil =>
      intro acc h1 _
      exact ⟨by simpa [fallback_fill] using h1, fun x => by simp [fallback_fill]⟩
  | cons c rest ih =>
      intro acc h1 h2
      rw [List.map_cons, List.nodup_cons] at h2
      by_cases hmem : c.cluster ∈ acc.map Prod.fst
      · obtain ⟨hnd, hiff⟩ := ih acc h1 h2.2
        refine ⟨by simpa [fallback_fill, hmem] using hnd, fun x => ?_⟩
        have hx : x ∈ (fallback_fill score acc (c :: rest)).map Prod.fst
            ↔ x ∈ (fallback_fill score acc rest).map Prod.fst := by
          simp [fallback_fill, hmem]
        rw [hx, hiff x]
        constructor
        · rintro (h | h)
          · exact Or.inl h
          · rw [List.map_cons]
            exact Or.inr (List.mem_cons_of_mem _ h)
        · rintro (h | h)
          · exact Or.inl h
          · rw [List.map_cons] at h
            rcases List.mem_cons.mp h with h | h
            · subst h; exact Or.inl hmem
            · exact Or.inr h
      · have hnd' : ((acc ++ [(c.cluster, argmax_persona (score c))]).map Prod.fst).Nodup := by
          simpa [List.nodup_append] using ⟨h1, fst_notmem_pair hmem⟩
        obtain ⟨hnd, hiff⟩ := ih (acc ++ [(c.cluster, argmax_persona (score c))]) hnd' h2.2
        refine ⟨by simpa [fallback_fill, hmem] using hnd, fun x => ?_⟩
        have hx : x ∈ (fallback_fill score acc (c :: rest)).map Prod.fst
            ↔ x ∈ (fallback_fill score (acc ++ [(c.cluster, argmax_persona (score c))]) rest).map
                Prod.fst := by
          simp [fallback_fill, hmem]
        rw [hx, hiff x]
        simp only [List.map_append, List.map_cons, List.map_nil, List.mem_append,
          List.mem_singleton, List.mem_cons]
        tauto

lemma fallback_of_all_assigned (score : ClusterStat → Persona → ℚ) :
    ∀ (cs : List ClusterStat) (acc : List (ℤ × Persona)),
      (∀ c ∈ cs, c.cluster ∈ acc.map Prod.fst) → fallback_fill score acc cs = acc := by
  intro cs
  induction cs with
  | nil => intro acc _; rfl
  | cons c rest ih =>
      intro acc h
      have hc : c.cluster ∈ acc.map Prod.fst := h c (List.mem_cons_self c rest)
      simp only [fallback_fill, hc, if_true]
      exact ih acc fun d hd => h d (List.mem_cons_of_mem c hd)

lemma fallback_mem_unassigned (score : ClusterStat → Persona → ℚ) :
    ∀ (cs : List ClusterStat) (acc : List (ℤ × Persona)) (c : ClusterStat),
      (cs.map ClusterStat.cluster).Nodup → c ∈ cs → c.cluster ∉ acc.map Prod.fst →
      (c.cluster, argmax_persona (score c)) ∈ fallback_fill score acc cs := by
  intro cs
  induction cs with
  | nil => intro acc c _ hc; cases hc
  | cons d rest ih =>
      intro acc c hnd hc hca
      rw [List.map_cons, List.nodup_cons] at hnd
      rcases List.mem_cons.mp hc with h | h
      · subst h
        simp only [fallback_fill, hca, if_false]
        exact fallback_mem_mono score rest _ _
          (List.mem_append_right _ (List.mem_singleton.mpr rfl))
      · by_cases hd : d.cluster ∈ acc.map Prod.fst
        · simp only [fallback_fill, hd, if_true]
          exact ih acc c hnd.2 h hca
        · simp only [fallback_fill, hd, if_false]
          have hne : c.cluster ≠ d.cluster := by
            intro he
            exact hnd.1 (he ▸ List.mem_map_of_mem ClusterStat.cluster h)
          refine ih _ c hnd.2 h ?_
          simp only [List.map_append, List.map_cons, List.map_nil, List.mem_append,
            List.mem_singleton]
          rintro (hin | hin)
          · exact hca hin
          · exact hne hin

/-- Claim C1: at every round of the greedy phase, among all clusters not yet
assigned and all personas not yet used, the single pair with the globally
highest affinity score is selected, appended to the assignment and the persona
marked used; and the greedy phase run from the empty state performs exactly
min(number of clusters, 3) assignments. The nodup hypothesis reflects that
pandas groupby yields one summary per distinct cluster id. -/
theorem greedy_matching_rounds (stats : List ClusterStat)
    (hnd : (stats.map ClusterStat.cluster).Nodup) :
    ((greedy_phase stats).1).length = min stats.length 3
    ∧ ∀ (as : List (ℤ × Persona)) (us : List Persona),
        as.length < stats.length → us.length < 3 →
        ∃ c p, c ∈ stats ∧ c.cluster ∉ as.map Prod.fst ∧ p ∈ persona_keys ∧ p ∉ us
          ∧ (∀ c2 ∈ stats, c2.cluster ∉ as.map Prod.fst → ∀ q : Persona, q ∉ us →
              scoresOf stats c2 q ≤ scoresOf stats c p)
          ∧ ∀ fuel : Nat,
              greedy_loop (scoresOf stats) stats (fuel + 1) as us
                = greedy_loop (scoresOf stats) stats fuel
                    (as ++ [(c.cluster, p)]) (us ++ [p]) := by
  have hpk : persona_keys.length = 3 := rfl
  constructor
  · have := greedy_loop_length stats hnd persona_keys.length [] []
      List.nodup_nil (by simp) rfl (by simp) (by simp)
    rw [hpk] at this
    exact this
  · intro as us h3 h4
    have h4' : us.length < persona_keys.length := by omega
    obtain ⟨c, p, hc, hca, hpu, heq, hmax⟩ :=
      find_best_choice stats (as.map Prod.fst) us
        (exists_unassigned stats (as.map Prod.fst) hnd (by rw [List.length_map]; omega))
        (exists_unused us h4')
    refine ⟨c, p, hc, hca, mem_persona_keys p, hpu, hmax, fun fuel => ?_⟩
    simp only [greedy_loop, if_pos (And.intro h3 h4'), heq]

/-- Witness for C1: the greedy phase on the two demo clusters makes exactly
min(2, 3) = 2 assignments. -/
theorem greedy_matching_rounds_witness :
    (demo_stats.map ClusterStat.cluster).Nodup
    ∧ ((greedy_phase demo_stats).1).length = min demo_stats.length 3 :=
  ⟨by decide, (greedy_matching_rounds demo_stats (by decide)).1⟩

/-- Claim C2: the final persona assignment is total (its keys are a
permutation of the cluster ids, so every cluster receives exactly one
persona); with exactly 3 clusters the assigned personas are a permutation of
the whole catalogue (a bijection); and every cluster left unassigned by the
greedy phase receives its own highest scoring persona, duplicates being
possible. -/
theorem persona_assignment_total (stats : List ClusterStat)
    (hnd : (stats.map ClusterStat.cluster).Nodup) :
    List.Perm ((assign_personas stats).map Prod.fst) (stats.map ClusterStat.cluster)
    ∧ (stats.length = 3 →
        List.Perm ((assign_personas stats).map Prod.snd) persona_keys)
    ∧ ∀ c ∈ stats, c.cluster ∉ ((greedy_phase stats).1).map Prod.fst →
        (c.cluster, argmax_persona (scoresOf stats c)) ∈ assign_personas stats := by
  have hpk : persona_keys.length = 3 := rfl
  obtain ⟨hA1, hA2, _, hA4⟩ :=
    greedy_loop_sound stats persona_keys.length [] []
      List.nodup_nil (by simp) (by simp) (by simp)
  rw [show greedy_loop (scoresOf stats) stats persona_keys.length [] []
      = greedy_phase stats from rfl] at hA1 hA2 hA4
  have hassign : assign_personas stats
      = fallback_fill (scoresOf stats) (greedy_phase stats).1 stats := rfl
  obtain ⟨hknd, hkiff⟩ := fallback_keys_spec (scoresOf stats) stats (greedy_phase stats).1 hA1 hnd
  refine ⟨?_, ?_, ?_⟩
  · rw [hassign]
    refine (List.perm_ext_iff_of_nodup hknd hnd).mpr fun a => ?_
    rw [hkiff a]
    constructor
    · rintro (h | h)
      · exact hA2 a h
      · exact h
    · exact Or.inr
  · intro h3
    have hlen : ((greedy_phase stats).1).length = min stats.length persona_keys.length :=
      greedy_loop_length stats hnd persona_keys.length [] []
        List.nodup_nil (by simp) rfl (by simp) (by simp)
    have hlen3 : ((greedy_phase stats).1).length = 3 := by rw [hlen, hpk, h3]; simp
    have hallmem : ∀ c ∈ stats, c.cluster ∈ ((greedy_phase stats).1).map Prod.fst := by
      have hperm : List.Perm (((greedy_phase stats).1).map Prod.fst)
          (stats.map ClusterStat.cluster) :=
        (hA1.subperm fun x hx => hA2 x hx).perm_of_length_le
          (by rw [List.length_map, List.length_map, hlen3, h3])
      intro c hc
      exact hperm.mem_iff.mpr (List.mem_map_of_mem ClusterStat.cluster hc)
    have hfix : assign_personas stats = (greedy_phase stats).1 := by
      rw [hassign]
      exact fallback_of_all_assigned (scoresOf stats) stats (greedy_phase stats).1 hallmem
    rw [hfix]
    have hsub : ((greedy_phase stats).1).map Prod.snd ⊆ persona_keys :=
      fun p _ => mem_persona_keys p
    exact (hA4.subperm hsub).perm_of_length_le (by rw [List.length_map, hlen3, hpk])
  · intro c hc hcn
    rw [hassign]
    exact fallback_mem_unassigned (scoresOf stats) stats (greedy_phase stats).1 c hnd hc hcn

/-- Witness for C2: on the two demo clusters, the assignment keys are a
permutation of the cluster ids. -/
theorem persona_assignment_total_witness :
    (demo_stats.map ClusterStat.cluster).Nodup
    ∧ List.Perm ((assign_personas demo_stats).map Prod.fst)
        (demo_stats.map ClusterStat.cluster) :=
  ⟨by decide, (persona_assignment_total demo_stats (by decide)).1⟩

end SegmentCustomers

namespace ScorePerformance

/-- Claim C5: each derived ratio metric equals numerator over denominator when
the denominator is nonzero and exactly 0 when the denominator is zero; the
zero test is value equality and the function is total, so safe division never
raises. -/
theorem safe_div_ratio_metrics (r : CampaignRow) :
    (r.impressions ≠ 0 → ctr r = r.clicks / r.impressions)
    ∧ (r.impressions = 0 → ctr r = 0)
    ∧ (r.clicks ≠ 0 → conversion_rate r = r.conversions / r.clicks
        ∧ cpc r = r.spend / r.clicks)
    ∧ (r.clicks = 0 → conversion_rate r = 0 ∧ cpc r = 0) := by
  refine ⟨fun h => ?_, fun h => ?_, fun h => ⟨?_, ?_⟩, fun h => ⟨?_, ?_⟩⟩ <;>
    simp [ctr, conversion_rate, cpc, safe_div, h]

/-- Witness for C5: a row with 100 impressions and 10 clicks has ctr 10/100,
and a row with 0 clicks has conversion rate 0. -/
theorem safe_div_ratio_metrics_witness :
    ctr demo_row_scoring = 10 / 100 ∧ conversion_rate demo_row_zero_clicks = 0 :=
  ⟨(safe_div_ratio_metrics demo_row_scoring).1 (by norm_num [demo_row_scoring]),
    ((safe_div_ratio_metrics demo_row_zero_clicks).2.2.2 (by norm_num [demo_row_zero_clicks])).1⟩

end ScorePerformance

/-- Claim C6: for each computation, whenever one of its required columns is
absent, that computation fails with the full list of its missing columns (the
reported list holds exactly the required absent columns) and the result does
not depend on the model: the opaque predict function is never applied. The two
pipelines are validated independently, each against its own column
contract. -/
theorem missing_columns_reported (cols : List String)
    (rows : List ScorePerformance.CampaignRow)
    (crows : List RecommendContent.ContentRow) :
    (∀ c, c ∈ ScorePerformance.missing_columns cols
        ↔ (c ∈ ScorePerformance.FEATURES ∧ c ∉ cols))
    ∧ (∀ c, c ∈ RecommendContent.missing_content_columns cols
        ↔ (c ∈ RecommendContent.feature_cols ∧ c ∉ cols))
    ∧ ((∃ c ∈ ScorePerformance.FEATURES, c ∉ cols) →
        ScorePerformance.missing_columns cols ≠ []
        ∧ ∀ predict : List ScorePerformance.CampaignRow → List ℚ,
            ScorePerformance.score_records predict cols rows
              = Except.error
                  (RunError.missingColumns (ScorePerformance.missing_columns cols)))
    ∧ ((∃ c ∈ RecommendContent.feature_cols, c ∉ cols) →
        RecommendContent.missing_content_columns cols ≠ []
        ∧ ∀ predict : List RecommendContent.ContentRow → List ℚ,
            RecommendContent.recommend_records predict cols crows
              = Except.error
                  (RunError.missingColumns
                    (RecommendContent.missing_content_columns cols))) := by
  refine ⟨fun c => ?_, fun c => ?_, fun h1 => ?_, fun h2 => ?_⟩
  · simp [ScorePerformance.missing_columns, List.mem_filter]
  · simp [RecommendContent.missing_content_columns, List.mem_filter]
  · obtain ⟨c1, hc1, hn1⟩ := h1
    have hm1 : c1 ∈ ScorePerformance.missing_columns cols := by
      simp [ScorePerformance.missing_columns, List.mem_filter, hc1, hn1]
    have hne1 : ScorePerformance.missing_columns cols ≠ [] := List.ne_nil_of_mem hm1
    exact ⟨hne1, fun predict => by simp [ScorePerformance.score_records, hne1]⟩
  · obtain ⟨c2, hc2, hn2⟩ := h2
    have hm2 : c2 ∈ RecommendContent.missing_content_columns cols := by
      simp [RecommendContent.missing_content_columns, List.mem_filter, hc2, hn2]
    have hne2 : RecommendContent.missing_content_columns cols ≠ [] := List.ne_nil_of_mem hm2
    exact ⟨hne2, fun predict => by simp [RecommendContent.recommend_records, hne2]⟩

/-- Witness for C6: an input with only the impressions column fails scoring
validation, and, independently, an input carrying all seven scoring columns
but lacking avg_roas (the scenario of the spec) fails content validation. -/
theorem missing_columns_reported_witness :
    ("clicks" ∈ ScorePerformance.FEATURES ∧ "clicks" ∉ (["impressions"] : List String))
    ∧ ScorePerformance.missing_columns ["impressions"] ≠ []
    ∧ RecommendContent.missing_content_columns
        ["impressions", "clicks", "spend", "conversions", "sessions", "add_to_carts",
          "avg_session_duration", "avg_engagement_rate", "avg_conversion_rate",
          "sample_size"] ≠ [] :=
  ⟨⟨by decide, by decide⟩,
    ((missing_columns_reported ["impressions"] [] []).2.2.1
      ⟨"clicks", by decide, by decide⟩).1,
    ((missing_columns_reported
        ["impressions", "clicks", "spend", "conversions", "sessions", "add_to_carts",
          "avg_session_duration", "avg_engagement_rate", "avg_conversion_rate",
          "sample_size"] [] []).2.2.2
      ⟨"avg_roas", by decide, by decide⟩).1⟩

namespace ScorePerformance

/-- Counterexample to claim C8 as stated: in score_performance.load_model a
deserialization failure that is neither a ValueError nor a TypeError (here a
KeyError) does not surface as the generic load failure; it escapes the except
clause uncaught. -/
theorem load_model_uncaught_cex :
    load_model "roi" true true
        (Except.error (PyModel.PyExc.otherExc "KeyError" "unsupported pickle"))
      = LoadResult.uncaught (PyModel.PyExc.otherExc "KeyError" "unsupported pickle")
    ∧ ∀ msg : String,
        load_model "roi" true true
            (Except.error (PyModel.PyExc.otherExc "KeyError" "unsupported pickle"))
          ≠ LoadResult.loadFailed msg := by
  refine ⟨rfl, fun msg h => ?_⟩
  have h2 : LoadResult.uncaught (PyModel.PyExc.otherExc "KeyError" "unsupported pickle")
      = LoadResult.loadFailed msg := h
  cases h2

/-- Claim C8 amended: absent artifacts give NotFound (in recommend_content the
FileNotFoundError path); ValueError and TypeError messages carrying a marker
give IncompatibleArtifact and otherwise the generic load failure with the
underlying message; and for every other exception class recommend_content
still reports the generic load failure through its catch-all, while
score_performance.load_model lets the exception propagate uncaught. -/
theorem artifact_load_taxonomy (mode msg : String) (e : PyModel.PyExc) :
    (∀ (se : Bool) (load : Except PyModel.PyExc Unit),
        load_model mode false se load = LoadResult.notFound (notfound_message mode)
        ∧ load_model mode se false load = LoadResult.notFound (notfound_message mode))
    ∧ RecommendContent.load_content_model
        (Except.error (PyModel.PyExc.fileNotFoundError msg))
        = LoadResult.notFound RecommendContent.notfound_content_message
    ∧ (PyModel.has_marker msg = true →
        load_model mode true true (Except.error (PyModel.PyExc.valueError msg))
            = LoadResult.incompatible incompat_message
        ∧ load_model mode true true (Except.error (PyModel.PyExc.typeError msg))
            = LoadResult.incompatible incompat_message
        ∧ RecommendContent.load_content_model (Except.error (PyModel.PyExc.valueError msg))
            = LoadResult.incompatible RecommendContent.incompat_content_message
        ∧ RecommendContent.load_content_model (Except.error (PyModel.PyExc.typeError msg))
            = LoadResult.incompatible RecommendContent.incompat_content_message)
    ∧ (PyModel.has_marker msg = false →
        load_model mode true true (Except.error (PyModel.PyExc.valueError msg))
            = LoadResult.loadFailed ("Failed to load model: " ++ msg)
        ∧ load_model mode true true (Except.error (PyModel.PyExc.typeError msg))
            = LoadResult.loadFailed ("Failed to load model: " ++ msg)
        ∧ RecommendContent.load_content_model (Except.error (PyModel.PyExc.valueError msg))
            = LoadResult.loadFailed ("Failed to load model: " ++ msg)
        ∧ RecommendContent.load_content_model (Except.error (PyModel.PyExc.typeError msg))
            = LoadResult.loadFailed ("Failed to load model: " ++ msg))
    ∧ ((∀ m, e ≠ PyModel.PyExc.valueError m) → (∀ m, e ≠ PyModel.PyExc.typeError m) →
        load_model mode true true (Except.error e) = LoadResult.uncaught e
        ∧ ((∀ m, e ≠ PyModel.PyExc.fileNotFoundError m) →
            RecommendContent.load_content_model (Except.error e)
              = LoadResult.loadFailed ("Failed to load model: " ++ PyModel.excMessage e))) := by
  refine ⟨fun se load => ⟨?_, ?_⟩, rfl, fun hm => ?_, fun hm => ?_, fun hv ht => ⟨?_, fun hf => ?_⟩⟩
  · simp [load_model]
  · simp [load_model]
  · exact ⟨by simp [load_model, hm], by simp [load_model, hm],
      by simp [RecommendContent.load_content_model, hm],
      by simp [RecommendContent.load_content_model, hm]⟩
  · exact ⟨by simp [load_model, hm], by simp [load_model, hm],
      by simp [RecommendContent.load_content_model, hm],
      by simp [RecommendContent.load_content_model, hm]⟩
  · cases e with
    | valueError m => exact absurd rfl (hv m)
    | typeError m => exact absurd rfl (ht m)
    | fileNotFoundError m => rfl
    | otherExc k m => rfl
  · cases e with
    | valueError m => exact absurd rfl (hv m)
    | typeError m => exact absurd rfl (ht m)
    | fileNotFoundError m => exact absurd rfl (hf m)
    | otherExc k m => rfl

/-- Witness for C8: a marker-carrying ValueError is reported incompatible, and
a KeyError in recommend_content still becomes a generic load failure. -/
theorem artifact_load_taxonomy_witness :
    PyModel.has_marker "node array from the pickle has an incompatible dtype" = true
    ∧ load_model "roi" true true
        (Except.error
          (PyModel.PyExc.valueError "node array from the pickle has an incompatible dtype"))
        = LoadResult.incompatible incompat_message
    ∧ RecommendContent.load_content_model
        (Except.error (PyModel.PyExc.otherExc "KeyError" "bad pickle"))
        = LoadResult.loadFailed ("Failed to load model: " ++ "bad pickle") := by
  have hm : PyModel.has_marker "node array from the pickle has an incompatible dtype"
      = true := by decide
  refine ⟨hm, ?_, ?_⟩
  · exact ((artifact_load_taxonomy "roi"
      "node array from the pickle has an incompatible dtype"
      (PyModel.PyExc.otherExc "KeyError" "bad pickle")).2.2.1 hm).1
  · exact (((artifact_load_taxonomy "roi" "x"
      (PyModel.PyExc.otherExc "KeyError" "bad pickle")).2.2.2.2
        (fun m h => nomatch h) (fun m h => nomatch h)).2 (fun m h => nomatch h))

/-- Claim C9: every unrecognized mode string falls back to the documented
default instead of failing: roi for scoring, behavior for segmentation. -/
theorem mode_fallback_default (mode : String) :
    (mode ∉ (["engagement", "roi", "conversion"] : List String) →
      normalize_scoring_mode mode = "roi")
    ∧ (mode ∉ (["behavior", "campaign", "engagement"] : List String) →
      SegmentCustomers.normalize_segmentation_mode mode = "behavior") := by
  constructor <;> intro h <;>
    simp [normalize_scoring_mode, SegmentCustomers.normalize_segmentation_mode, h]

/-- Witness for C9 at the unrecognized mode banana. -/
theorem mode_fallback_default_witness :
    normalize_scoring_mode "banana" = "roi"
    ∧ SegmentCustomers.normalize_segmentation_mode "banana" = "behavior" :=
  ⟨(mode_fallback_default "banana").1 (by decide),
    (mode_fallback_default "banana").2 (by decide)⟩

/-- Claim C10: the top-K size is the constant 5: the top campaigns list is the
head of the descending sort and has min 5 n entries (exactly 5 when the input
has at least 5 records), the legacy recommendations list has the same length,
and the content recommender top picks obey the same bound. -/
theorem topk_limit (key : PredRecord → ℚ) (preds : List PredRecord)
    (score : RecommendContent.ContentRow → ℚ)
    (rows : List RecommendContent.ContentRow) :
    (top_campaigns key preds).length = min 5 preds.length
    ∧ (5 ≤ preds.length → (top_campaigns key preds).length = 5)
    ∧ (top_recommendations key preds).length = (top_campaigns key preds).length
    ∧ top_campaigns key preds = (rank_descending key preds).take 5
    ∧ (RecommendContent.top_picks score rows).length = min 5 rows.length
    ∧ (5 ≤ rows.length → (RecommendContent.top_picks score rows).length = 5) := by
  have hA : (top_campaigns key preds).length = min 5 preds.length := by
    simp [top_campaigns, rank_descending, List.length_take, List.length_mergeSort]
  have hC : (RecommendContent.top_picks score rows).length = min 5 rows.length := by
    simp [RecommendContent.top_picks, List.length_take, List.length_mergeSort]
  refine ⟨hA, fun h => by rw [hA]; omega, ?_, rfl, hC, fun h => by rw [hC]; omega⟩
  simp [top_recommendations]

/-- Witness for C10: five identical records yield exactly five top
campaigns. -/
theorem topk_limit_witness :
    5 ≤ demo_preds.length
    ∧ (top_campaigns PredRecord.ctr demo_preds).length = 5 :=
  ⟨by decide,
    (topk_limit PredRecord.ctr demo_preds (fun _ => 0) RecommendContent.demo_rows).2.1
      (by decide)⟩

end ScorePerformance
